import Mathlib

/-!
# Verification of the legalnav-api attorney-attribution pipeline

A shallow embedding of the pure logic of `src/main.py`: the attorney
text-extraction pass, the per-case source reconciliation, the cross-case
aggregation and ranking, the jurisdiction filter-query builder, the
docket parties fetcher, and the attorney-verification endpoint.

External effects (HTTP fetches, the regex engine) are represented by
their results, which the embedded functions take as explicit inputs:
the text extractor receives the list of pattern matches (each a pair of
captured groups), the docket fetcher receives the decoded response, and
the per-case pipeline receives the per-source fetch results.  All string
processing downstream of those boundaries is embedded faithfully.
-/

/-! ## String helpers (Python string primitives on `List Char`) -/

/-- Python `str.lower()`: character-wise lowercasing. -/
def lowerStr (s : String) : String := ⟨s.data.map Char.toLower⟩

/-- Python `str.upper()`: character-wise uppercasing. -/
def upperStr (s : String) : String := ⟨s.data.map Char.toUpper⟩

/-- Drop leading and trailing whitespace from a character list. -/
def trimList (l : List Char) : List Char :=
  ((l.dropWhile Char.isWhitespace).reverse.dropWhile Char.isWhitespace).reverse

/-- Python `str.strip()`. -/
def stripStr (s : String) : String := ⟨trimList s.data⟩

/-- Does `pre` start the list `l`? -/
def isPrefixList : List Char → List Char → Bool
  | [], _ => true
  | _ :: _, [] => false
  | a :: as, b :: bs => a == b && isPrefixList as bs

/-- Does `needle` occur contiguously inside `hay`?  (Python `needle in hay`.) -/
def containsList (needle : List Char) : List Char → Bool
  | [] => needle.isEmpty
  | b :: bs => isPrefixList needle (b :: bs) || containsList needle bs

/-- Python `needle in hay` on strings. -/
def strContains (hay needle : String) : Bool := containsList needle.data hay.data

/-- Replace every maximal whitespace run by a single space
(Python `re.sub(r"\s+", " ", s)`); the flag records whether the
previous character was whitespace. -/
def collapseWSGo : Bool → List Char → List Char
  | _, [] => []
  | prevWS, c :: t =>
    if c.isWhitespace then
      if prevWS then collapseWSGo true t else ' ' :: collapseWSGo true t
    else c :: collapseWSGo false t

/-- Remove a single trailing comma (Python `re.sub(r",$", "", s)` on a
string with no trailing newline). -/
def removeTrailingComma (l : List Char) : List Char :=
  if l.getLast? == some ',' then l.dropLast else l

/-- Python `sep.join(parts)`. -/
def joinSep (sep : String) : List String → String
  | [] => ""
  | [x] => x
  | x :: y :: t => x ++ sep ++ joinSep sep (y :: t)

/-- First-match association lookup, the semantics of a Python dict
with distinct keys (`d.get(k)`). -/
def alookup {α : Type} : List (String × α) → String → Option α
  | [], _ => none
  | (k, v) :: t, key => if k == key then some v else alookup t key

/-- Python truthiness of an `Optional[str]`: `None` and `""` are falsy. -/
def pyTruthyStr : Option String → Bool
  | none => false
  | some s => s ≠ ""

/-- Python truthiness of an `Optional[int]`: `None` and `0` are falsy. -/
def pyTruthyInt : Option Int → Bool
  | none => false
  | some n => n ≠ 0

/-! ## Data model: `AttorneyInfo` (src/main.py lines 256-262) -/

/-- One attorney record, as produced by any of the three sources. -/
structure AttorneyInfo where
  name : String
  role : Option String
  firm : Option String
  party_represented : Option String
  source : String
deriving DecidableEq, Repr

/-! ## Text extractor (`extract_attorneys_from_text`, lines 488-583)

The regex battery is the input boundary: a match is the pair of its two
captured groups, and the extractor is embedded as a function of the
match list produced by scanning the patterns over the text in order. -/

/-- The two captured groups of one pattern match. -/
structure RMatch where
  g0 : String
  g1 : String
deriving DecidableEq, Repr

/-- Party-alias table of the extractor (lines 522-529). -/
def party_aliases : List (String × List String) :=
  [("appellant", ["appellant", "plaintiff", "petitioner"]),
   ("appellee", ["appellee", "respondent", "defendant"]),
   ("plaintiff", ["plaintiff", "appellant", "petitioner"]),
   ("defendant", ["defendant", "appellee", "respondent"]),
   ("tenant", ["appellant", "plaintiff", "petitioner", "tenant"]),
   ("landlord", ["appellee", "respondent", "defendant", "landlord"])]

/-- Line 531: `party_aliases.get(party_filter.lower(), []) if party_filter != "all" else []`. -/
def filterPartiesOf (party_filter : String) : List String :=
  if party_filter ≠ "all" then (alookup party_aliases (lowerStr party_filter)).getD []
  else []

/-- The false-positive reject list (lines 561-562). -/
def skip_words : List String :=
  ["the court", "this court", "trial court", "superior court",
   "we conclude", "we hold", "we reverse", "we affirm"]

/-- Lines 539-544: decide which group is the name and which the party
(`"for"` occurs in every pattern, so the second branch is taken exactly
when group 0 is falsy), stripping both. Returns `(name, party)`. -/
def rawNameParty (m : RMatch) : String × String :=
  if m.g0 ≠ "" then (stripStr m.g0, stripStr m.g1)
  else (stripStr m.g1, stripStr m.g0)

/-- Lines 556-558: whitespace normalization, strip, trailing-comma removal. -/
def cleanupName (s : String) : String :=
  ⟨removeTrailingComma (trimList (collapseWSGo false s.data))⟩

/-- Body of the match loop of the extractor (lines 535-572): length guard
on the raw stripped name, party filtering, name cleanup, reject-list
guard; `none` models `continue`. -/
def processMatch (filter_parties : List String) (m : RMatch) : Option AttorneyInfo :=
  let name := (rawNameParty m).1
  let party := (rawNameParty m).2
  if name == "" || name.length < 3 then none
  else if !filter_parties.isEmpty &&
      !(filter_parties.any fun fp => strContains (lowerStr party) fp) then none
  else
    let cname := cleanupName name
    if skip_words.any (fun sw => strContains (lowerStr cname) sw) then none
    else some { name := cname, role := some ("For " ++ party), firm := none,
                party_represented := some party, source := "opinion_text" }

/-- Lines 574-582: collapse to one record per case-insensitive name,
first occurrence winning; `seen` is the accumulated key set. -/
def dedupGo (seen : List String) : List AttorneyInfo → List AttorneyInfo
  | [] => []
  | a :: t =>
    let k := lowerStr a.name
    if seen.contains k then dedupGo seen t
    else a :: dedupGo (k :: seen) t

/-- Deduplication by case-insensitive name (lines 574-582). -/
def dedupByName (l : List AttorneyInfo) : List AttorneyInfo := dedupGo [] l

/-- Embedding of `extract_attorneys_from_text`, as a function of the pattern-match
list scanned from the text (in pattern order) and the party filter. -/
def extract_attorneys_from_matches (ms : List RMatch) (party_filter : String) :
    List AttorneyInfo :=
  dedupByName (ms.filterMap (processMatch (filterPartiesOf party_filter)))

/-! ## Per-case reconciliation (`search_with_attorney_extraction`,
lines 804-874) -/

/-- Alias table of the reconciliation step (lines 844-849). -/
def reconcile_party_aliases : List (String × List String) :=
  [("appellant", ["appellant", "plaintiff", "petitioner"]),
   ("appellee", ["appellee", "respondent", "defendant"]),
   ("tenant", ["appellant", "plaintiff", "petitioner", "tenant"]),
   ("landlord", ["appellee", "respondent", "defendant", "landlord"])]

/-- Line 850: `party_aliases.get(party_filter.lower(), [party_filter.lower()])`. -/
def reconcileTerms (party_filter : String) : List String :=
  (alookup reconcile_party_aliases (lowerStr party_filter)).getD [lowerStr party_filter]

/-- The retention test of the list comprehension at lines 851-856
(Python `and` binds tighter than `or`). -/
def keepRecord (filter_terms : List String) (a : AttorneyInfo) : Bool :=
  (pyTruthyStr a.party_represented &&
    filter_terms.any fun ft => strContains (lowerStr (a.party_represented.getD "")) ft)
  || (pyTruthyStr a.role &&
    filter_terms.any fun ft => strContains (lowerStr (a.role.getD "")) ft)
  || a.source == "search_result"

/-- Lines 843-856: the per-case party filter, applied only when the
filter is narrower than `"all"` and the record list is non-empty. -/
def applyPartyFilter (party_filter : String) (case_attorneys : List AttorneyInfo) :
    List AttorneyInfo :=
  if party_filter ≠ "all" && !case_attorneys.isEmpty then
    case_attorneys.filter (keepRecord (reconcileTerms party_filter))
  else case_attorneys

/-! ## Per-case collection pipeline (lines 804-874)

One search result, with the outcomes of the external fetches it would
trigger supplied as data: the inline attorney string, the docket lookup
result, and the opinion text in the form of its pattern-match list
(`none` when the fetch returns no usable text). -/

/-- One search hit together with its fetch outcomes. -/
structure CaseSearchResult where
  searchAttorney : String
  docket_id : Option Int
  docketAttorneys : List AttorneyInfo
  cluster_id : Option Int
  opinionMatches : Option (List RMatch)
deriving DecidableEq, Repr

/-- Lines 819-828: the inline search-result attorney record, if the
field is truthy. -/
def searchFieldRecords (c : CaseSearchResult) : List AttorneyInfo :=
  if c.searchAttorney ≠ "" then
    [{ name := c.searchAttorney, role := some "From case record", firm := none,
       party_represented := none, source := "search_result" }]
  else []

/-- Lines 830-833: the docket lookup runs only when `docket_id` is truthy. -/
def docketRecords (c : CaseSearchResult) : List AttorneyInfo :=
  if pyTruthyInt c.docket_id then c.docketAttorneys else []

/-- Lines 804-856 for one case: collect the three sources (the opinion
text gated at line 836 by `cluster_id and len(case_attorneys) < 2`),
then apply the party filter.  The boolean records whether the
opinion-text fetch-and-extract step ran. -/
def collectCase (party_filter : String) (c : CaseSearchResult) :
    List AttorneyInfo × Bool :=
  let ca := searchFieldRecords c ++ docketRecords c
  if pyTruthyInt c.cluster_id && ca.length < 2 then
    let textRecords := match c.opinionMatches with
      | some ms => extract_attorneys_from_matches ms party_filter
      | none => []
    (applyPartyFilter party_filter (ca ++ textRecords), true)
  else (applyPartyFilter party_filter ca, false)

/-! ## Cross-case aggregation and ranking (lines 874-904) -/

/-- One entry of the `attorney_counts` map; the Python sets are
modelled as insertion-ordered lists of distinct elements. -/
structure AttorneyAgg where
  name : String
  roles : List String
  firms : List String
  case_count : Nat
  sources : List String
deriving DecidableEq, Repr

/-- Python `set.add`: append when absent. -/
def addToSet (x : String) (s : List String) : List String :=
  if s.contains x then s else s ++ [x]

/-- Line 879: the aggregation key. -/
def aggKey (a : AttorneyInfo) : String := stripStr (lowerStr a.name)

/-- Lines 888-893: increment the count and union the role, firm and
source sets (falsy role/firm are skipped). -/
def updAgg (a : AttorneyInfo) (g : AttorneyAgg) : AttorneyAgg :=
  { g with
    case_count := g.case_count + 1,
    roles := if pyTruthyStr a.role then addToSet (a.role.getD "") g.roles else g.roles,
    firms := if pyTruthyStr a.firm then addToSet (a.firm.getD "") g.firms else g.firms,
    sources := addToSet a.source g.sources }

/-- Lines 880-893: fold one record into the insertion-ordered map. -/
def bumpAgg (a : AttorneyInfo) : List (String × AttorneyAgg) →
    List (String × AttorneyAgg)
  | [] => [(aggKey a, updAgg a { name := a.name, roles := [], firms := [],
                                 case_count := 0, sources := [] })]
  | (k, g) :: t =>
    if k == aggKey a then (k, updAgg a g) :: t
    else (k, g) :: bumpAgg a t

/-- Lines 877-893: the `attorney_counts` map over all retained records,
in discovery (insertion) order. -/
def aggregate (l : List AttorneyInfo) : List (String × AttorneyAgg) :=
  l.foldl (fun acc a => bumpAgg a acc) []

/-- Stable insertion into a descending-by-`case_count` list: the new
element goes after every strictly greater element and before equal ones. -/
def insertDesc (x : AttorneyAgg) : List AttorneyAgg → List AttorneyAgg
  | [] => [x]
  | y :: t => if x.case_count < y.case_count then y :: insertDesc x t
              else x :: y :: t

/-- Line 903: `sorted(..., key=case_count, reverse=True)` — a stable
descending sort, embedded as stable insertion sort. -/
def sortDesc : List AttorneyAgg → List AttorneyAgg
  | [] => []
  | x :: t => insertDesc x (sortDesc t)

/-- Lines 895-904: the ranked `unique_attorneys` list. -/
def unique_attorneys (l : List AttorneyInfo) : List AttorneyAgg :=
  sortDesc ((aggregate l).map Prod.snd)

/-! ## Jurisdiction filter builder (lines 403-486) -/

/-- Table `COURTLISTENER_JURISDICTIONS` (lines 403-457), in declaration order. -/
def COURTLISTENER_JURISDICTIONS : List (String × List String) :=
  [("ca", ["cal", "calctapp", "calappdeptsuperct"]),
   ("tx", ["tex", "texapp", "texcrimapp"]),
   ("ny", ["ny", "nyappdiv", "nyappterm"]),
   ("fl", ["fla", "fladistctapp"]),
   ("il", ["ill", "illappct"]),
   ("pa", ["pa", "pasuperct", "pacommwct"]),
   ("oh", ["ohio", "ohioctapp"]),
   ("ga", ["ga", "gactapp"]),
   ("nc", ["nc", "ncctapp"]),
   ("nj", ["nj", "njsuperctappdiv"]),
   ("mi", ["mich", "michctapp"]),
   ("va", ["va", "vactapp"]),
   ("wa", ["wash", "washctapp"]),
   ("az", ["ariz", "arizctapp"]),
   ("ma", ["mass", "massappct"]),
   ("in", ["ind", "indctapp"]),
   ("tn", ["tenn", "tennctapp"]),
   ("mo", ["mo", "moctapp"]),
   ("md", ["md", "mdctspecapp"]),
   ("wi", ["wis", "wisctapp"]),
   ("co", ["colo", "coloctapp"]),
   ("mn", ["minn", "minnctapp"]),
   ("al", ["ala", "alactapp"]),
   ("sc", ["sc", "scctapp"]),
   ("la", ["la", "lactapp"]),
   ("ky", ["ky", "kyctapp"]),
   ("or", ["or", "orctapp"]),
   ("ok", ["okla", "oklacivapp", "oklacrimapp"]),
   ("ct", ["conn", "connappct"]),
   ("ia", ["iowa", "iowactapp"]),
   ("ms", ["miss", "missctapp"]),
   ("ar", ["ark", "arkctapp"]),
   ("ks", ["kan", "kanctapp"]),
   ("ut", ["utah", "utahctapp"]),
   ("nv", ["nev", "nevapp"]),
   ("nm", ["nm", "nmctapp"]),
   ("ne", ["neb", "nebctapp"]),
   ("wv", ["wva"]),
   ("id", ["idaho", "idahoctapp"]),
   ("hi", ["haw", "hawapp"]),
   ("me", ["me"]),
   ("nh", ["nh"]),
   ("ri", ["ri"]),
   ("mt", ["mont"]),
   ("de", ["del", "delch", "delsuperct"]),
   ("sd", ["sd"]),
   ("nd", ["nd", "ndctapp"]),
   ("ak", ["alaska", "alaskactapp"]),
   ("dc", ["dc", "dcctapp"]),
   ("vt", ["vt"]),
   ("wy", ["wyo"]),
   ("scotus", ["scotus"]),
   ("federal", ["ca1", "ca2", "ca3", "ca4", "ca5", "ca6", "ca7", "ca8",
                "ca9", "ca10", "ca11", "cadc", "cafc"])]

/-- Embedding of `build_court_filter_query` (lines 475-486). -/
def build_court_filter_query (jurisdiction : String) : String :=
  let j := lowerStr jurisdiction
  match alookup COURTLISTENER_JURISDICTIONS j with
  | some court_ids =>
    if court_ids.length == 1 then "court_id:" ++ court_ids.headD ""
    else "(" ++ joinSep " OR " (court_ids.map fun cid => "court_id:" ++ cid) ++ ")"
  | none => "court_id:" ++ j

/-! ## Docket parties fetcher (`fetch_parties_and_attorneys`, lines 631-670)

The decoded HTTP response is the input.  A party entry either decodes
into its fields, or is `bad`: processing it raises (any of the
`.get`/indexing attribute errors on malformed data).  The `except`
handler catches the exception, so the loop stops there and the
accumulated records are returned. -/

/-- One attorney row of a party, as decoded from the response. -/
structure PartyAttorney where
  name : String
  contact_raw : String
deriving DecidableEq, Repr

/-- One entry of the `results` array of the response. -/
inductive PartyEntry where
  | ok (partyName : String) (partyTypeName : String) (attys : List PartyAttorney)
  | bad
deriving DecidableEq, Repr

/-- The decoded parties response: HTTP status and the `results` array. -/
structure PartiesResponse where
  status : Nat
  results : List PartyEntry
deriving DecidableEq, Repr

/-- Lines 655-665: the records built from one well-formed party
(attorneys with a falsy name are skipped). -/
def partyRecords : PartyEntry → List AttorneyInfo
  | .bad => []
  | .ok partyName partyTypeName attys =>
    attys.filterMap fun a =>
      if a.name ≠ "" then
        some { name := a.name, role := some ("For " ++ partyTypeName),
               firm := some a.contact_raw, party_represented := some partyName,
               source := "docket" }
      else none

/-- The party loop (lines 649-665): on a malformed entry the raised
exception is caught at line 667 and the records accumulated so far are
returned. -/
def partiesLoop (acc : List AttorneyInfo) : List PartyEntry → List AttorneyInfo
  | [] => acc
  | .bad :: _ => acc
  | e :: rest => partiesLoop (acc ++ partyRecords e) rest

/-- Embedding of `fetch_parties_and_attorneys` (lines 631-670) on a decoded response:
a non-200 status returns the (empty) accumulator at line 644. -/
def fetch_parties_and_attorneys (resp : PartiesResponse) : List AttorneyInfo :=
  if resp.status ≠ 200 then []
  else partiesLoop [] resp.results

/-! ## Attorney verification (lines 345-473 and 1004-1027) -/

/-- One entry of `STATE_BAR_INFO`. -/
structure BarInfo where
  name : String
  url : String
  instructions : String
deriving DecidableEq, Repr

/-- Table `STATE_BAR_INFO` (lines 345-397), in declaration order. -/
def STATE_BAR_INFO : List (String × BarInfo) :=
  [("AL", ⟨"Alabama State Bar", "https://www.alabar.org/for-the-public/find-a-lawyer/", "Search by name or bar number"⟩),
   ("AK", ⟨"Alaska Bar Association", "https://www.alaskabar.org/attorney-directory/", "Search by name or bar number"⟩),
   ("AZ", ⟨"State Bar of Arizona", "https://www.azbar.org/for-the-public/find-a-lawyer/", "Search by name or bar number"⟩),
   ("AR", ⟨"Arkansas Bar Association", "https://www.arkbar.com/for-the-public/lawyer-search", "Search by name"⟩),
   ("CA", ⟨"State Bar of California", "https://apps.calbar.ca.gov/attorney/Licensee/Detail/", "Add the bar number to the end of the URL, or search at calbar.ca.gov"⟩),
   ("CO", ⟨"Colorado Supreme Court Office of Attorney Regulation", "https://www.coloradosupremecourt.com/Search/AttSearch.asp", "Search by name or registration number"⟩),
   ("CT", ⟨"Connecticut Bar Association", "https://www.jud.ct.gov/attorneyfirminquiry/", "Search by name or juris number"⟩),
   ("DE", ⟨"Delaware State Bar Association", "https://courts.delaware.gov/forms/download.aspx?id=39492", "Search by name"⟩),
   ("DC", ⟨"District of Columbia Bar", "https://www.dcbar.org/membership/members", "Search by name or bar number"⟩),
   ("FL", ⟨"The Florida Bar", "https://www.floridabar.org/directories/find-mbr/", "Search by name or bar number"⟩),
   ("GA", ⟨"State Bar of Georgia", "https://www.gabar.org/membersearchresults.cfm", "Search by name or bar number"⟩),
   ("HI", ⟨"Hawaii State Bar Association", "https://hsba.org/HSBA/For_the_Public/Find_a_Lawyer/HSBA/FOR_THE_PUBLIC/Find_a_Lawyer.aspx", "Search by name"⟩),
   ("ID", ⟨"Idaho State Bar", "https://isb.idaho.gov/licensing/attorney-roster/", "Search by name"⟩),
   ("IL", ⟨"ARDC Illinois", "https://www.iardc.org/lawyersearch.asp", "Search by name or registration number"⟩),
   ("IN", ⟨"Indiana Supreme Court Roll of Attorneys", "https://courtapps.in.gov/rollofattorneys/", "Search by name or attorney number"⟩),
   ("IA", ⟨"Iowa Judicial Branch", "https://www.iacourtcommissions.org/iowaattorney/attorney.do", "Search by name or bar number"⟩),
   ("KS", ⟨"Kansas Bar Association", "https://www.kscourts.org/attorney", "Search by name or bar number"⟩),
   ("KY", ⟨"Kentucky Bar Association", "https://www.kybar.org/search/custom.asp?id=2972", "Search by name or bar number"⟩),
   ("LA", ⟨"Louisiana State Bar Association", "https://www.lsba.org/Public/FindLawyer.aspx", "Search by name or bar number"⟩),
   ("ME", ⟨"Maine Board of Overseers of the Bar", "https://www.mebaroverseers.org/attorney_search.html", "Search by name or bar number"⟩),
   ("MD", ⟨"Maryland Courts Attorney Search", "https://mdcourts.gov/attygrievance/attorneysearch", "Search by name or ID"⟩),
   ("MA", ⟨"Massachusetts Board of Bar Overseers", "https://www.massbbo.org/AttorneySearch", "Search by name or BBO number"⟩),
   ("MI", ⟨"State Bar of Michigan", "https://www.michbar.org/member/MemberDirectory", "Search by name or P number"⟩),
   ("MN", ⟨"Minnesota Lawyer Registration", "https://www.mncourts.gov/Find-a-Lawyer.aspx", "Search by name or ID"⟩),
   ("MS", ⟨"Mississippi Bar", "https://www.msbar.org/for-the-public/attorney-directory/", "Search by name or bar number"⟩),
   ("MO", ⟨"Missouri Bar", "https://mobar.org/public/AttorneyDirectorySearch.aspx", "Search by name or bar number"⟩),
   ("MT", ⟨"State Bar of Montana", "https://www.montanabar.org/page/FindLegalHelp", "Search by name"⟩),
   ("NE", ⟨"Nebraska State Bar Association", "https://www.nebar.com/search/custom.asp?id=2040", "Search by name"⟩),
   ("NV", ⟨"State Bar of Nevada", "https://nvbar.org/member-services/member-directory/", "Search by name or bar number"⟩),
   ("NH", ⟨"New Hampshire Bar Association", "https://www.nhbar.org/lawyer-referral-service/", "Search by name"⟩),
   ("NJ", ⟨"New Jersey Courts Attorney Search", "https://portal.njcourts.gov/webcivilcj/CJWebApp/pages/showAttorneyInfo.faces", "Search by name or ID"⟩),
   ("NM", ⟨"State Bar of New Mexico", "https://www.sbnm.org/For-Public/Find-A-Lawyer", "Search by name"⟩),
   ("NY", ⟨"New York Courts Attorney Search", "https://iapps.courts.state.ny.us/attorneyservices/search", "Search by name or registration number"⟩),
   ("NC", ⟨"North Carolina State Bar", "https://www.ncbar.gov/for-the-public/find-a-lawyer/", "Search by name or bar number"⟩),
   ("ND", ⟨"State Bar Association of North Dakota", "https://www.sband.org/search/custom.asp?id=5512", "Search by name"⟩),
   ("OH", ⟨"Ohio Supreme Court Attorney Directory", "https://www.supremecourt.ohio.gov/AttorneySearch/", "Search by name or registration number"⟩),
   ("OK", ⟨"Oklahoma Bar Association", "https://www.okbar.org/freelegalinfo/findingalawyer/", "Search by name or bar number"⟩),
   ("OR", ⟨"Oregon State Bar", "https://www.osbar.org/members/membersearch.asp", "Search by name or bar number"⟩),
   ("PA", ⟨"Pennsylvania Bar Association", "https://www.padisciplinaryboard.org/for-the-public/find-attorney", "Search by name or ID"⟩),
   ("RI", ⟨"Rhode Island Bar Association", "https://www.ribar.com/for-the-public/find-a-lawyer/", "Search by name"⟩),
   ("SC", ⟨"South Carolina Bar", "https://www.scbar.org/lawyers/lawyer-directory/", "Search by name or bar number"⟩),
   ("SD", ⟨"State Bar of South Dakota", "https://www.statebarofsouthdakota.com/find-a-lawyer", "Search by name"⟩),
   ("TN", ⟨"Tennessee Board of Professional Responsibility", "https://www.tbpr.org/attorneys", "Search by name or BPR number"⟩),
   ("TX", ⟨"State Bar of Texas", "https://www.texasbar.com/AM/Template.cfm?Section=Find_A_Lawyer", "Search by name or bar number"⟩),
   ("UT", ⟨"Utah State Bar", "https://www.utahbar.org/public-services/find-a-lawyer/", "Search by name or bar number"⟩),
   ("VT", ⟨"Vermont Bar Association", "https://www.vtbar.org/find-a-lawyer/", "Search by name"⟩),
   ("VA", ⟨"Virginia State Bar", "https://www.vsb.org/attorney/attSearch.asp", "Search by name or VSB number"⟩),
   ("WA", ⟨"Washington State Bar Association", "https://www.mywsba.org/PersonifyEbusiness/LegalDirectory.aspx", "Search by name or bar number"⟩),
   ("WV", ⟨"West Virginia State Bar", "https://wvbar.org/for-the-public/find-a-lawyer/", "Search by name"⟩),
   ("WI", ⟨"State Bar of Wisconsin", "https://www.wisbar.org/forPublic/FindaLawyer/Pages/Find-a-Lawyer.aspx", "Search by name or bar number"⟩),
   ("WY", ⟨"Wyoming State Bar", "https://www.wyomingbar.org/for-the-public/find-a-lawyer/", "Search by name"⟩)]

/-- The generic fallback URL of `build_verification_url` (line 473). -/
def ABA_FALLBACK_URL : String :=
  "https://www.americanbar.org/groups/legal_services/flh-home/"

/-- The CA direct-link base (line 472). -/
def CALBAR_DETAIL_URL : String :=
  "https://apps.calbar.ca.gov/attorney/Licensee/Detail/"

/-- Embedding of `build_verification_url` (lines 467-473). -/
def build_verification_url (state bar_number : String) : String :=
  let st := upperStr state
  if st == "CA" && bar_number ≠ "" then CALBAR_DETAIL_URL ++ bar_number
  else
    match alookup STATE_BAR_INFO st with
    | some info => info.url
    | none => ABA_FALLBACK_URL

/-- The request body of `/api/v1/attorneys/verify` (lines 223-238). -/
structure VerifyAttorneyRequest where
  state : String
  bar_number : String
deriving DecidableEq, Repr

/-- The fields of `VerifyAttorneyResponse` that the handler computes
(the remaining fields are constants). -/
structure VerifyAttorneyResponse where
  verification_url : String
  state_bar_name : String
  instructions : String
deriving DecidableEq, Repr

/-- Embedding of `verify_attorney` (lines 1004-1027): `error n` models
`HTTPException(status_code=n)`. -/
def verify_attorney (req : VerifyAttorneyRequest) :
    Except Nat VerifyAttorneyResponse :=
  let state := upperStr req.state
  let bar_number := stripStr req.bar_number
  match alookup STATE_BAR_INFO state with
  | none => .error 400
  | some info =>
    .ok { verification_url := build_verification_url state bar_number,
          state_bar_name := info.name, instructions := info.instructions }

/-! ## Claim-side (spec-worded) definitions, for refinement comparison -/

/-- Reading of `case_count` given by the spec: the number of cases (record
lists) in which the key appears among the retained records. -/
def specCaseCount (cases : List (List AttorneyInfo)) (key : String) : Nat :=
  cases.countP fun c => c.any fun a => aggKey a == key

/-- Reading, per the claim, of "field textually contains one of the alias
terms", on an optional field. -/
def claimContainsTerm (terms : List String) : Option String → Bool
  | none => false
  | some s => terms.any fun t => strContains (lowerStr s) t

/-! ## Helper lemmas -/

theorem alookup_mem {α : Type} (l : List (String × α)) (k : String) (v : α)
    (h : alookup l k = some v) : (k, v) ∈ l := by
  induction l with
  | nil => simp [alookup] at h
  | cons p t ih =>
    obtain ⟨k', v'⟩ := p
    by_cases hk : k' == k
    · have hk' : k' = k := by simpa using hk
      simp [alookup, hk] at h
      subst hk'
      simp [h]
    · simp only [alookup, hk, Bool.false_eq_true, if_false] at h
      exact List.mem_cons_of_mem _ (ih h)

theorem data_ne_nil_of_ne_empty {s : String} (h : s ≠ "") : s.data ≠ [] :=
  fun hh => h (String.ext hh)

theorem lowerStr_ne_empty {s : String} (h : s ≠ "") : lowerStr s ≠ "" := by
  intro hl
  apply h
  apply String.ext
  have : (lowerStr s).data = s.data.map Char.toLower := rfl
  rw [hl] at this
  have hnil : s.data.map Char.toLower = [] := this.symm
  simpa using List.map_eq_nil_iff.mp hnil

theorem strContains_empty_hay {t : String} (h : t ≠ "") :
    strContains "" t = false := by
  have : strContains "" t = t.data.isEmpty := rfl
  rw [this]
  cases ht : t.data with
  | nil => exact absurd ht (data_ne_nil_of_ne_empty h)
  | cons c cs => rfl

theorem mem_of_mem_dedupGo {a : AttorneyInfo} :
    ∀ (l : List AttorneyInfo) (seen : List String), a ∈ dedupGo seen l → a ∈ l := by
  intro l
  induction l with
  | nil => intro seen h; simp [dedupGo] at h
  | cons x t ih =>
    intro seen h
    simp only [dedupGo] at h
    by_cases hc : seen.contains (lowerStr x.name)
    · rw [if_pos hc] at h
      exact List.mem_cons_of_mem _ (ih seen h)
    · rw [if_neg hc] at h
      rcases List.mem_cons.mp h with h1 | h2
      · exact h1 ▸ List.mem_cons_self _ _
      · exact List.mem_cons_of_mem _ (ih _ h2)

theorem dedupGo_not_seen {a : AttorneyInfo} :
    ∀ (l : List AttorneyInfo) (seen : List String), a ∈ dedupGo seen l →
      seen.contains (lowerStr a.name) = false := by
  intro l
  induction l with
  | nil => intro seen h; simp [dedupGo] at h
  | cons x t ih =>
    intro seen h
    simp only [dedupGo] at h
    by_cases hc : seen.contains (lowerStr x.name)
    · rw [if_pos hc] at h
      exact ih seen h
    · rw [if_neg hc] at h
      rcases List.mem_cons.mp h with h1 | h2
      · subst h1
        simpa using hc
      · have := ih _ h2
        rw [List.contains_cons] at this
        simpa using (Bool.or_eq_false_iff.mp this).2

theorem dedupGo_idem :
    ∀ (l : List AttorneyInfo) (seen : List String),
      dedupGo seen (dedupGo seen l) = dedupGo seen l := by
  intro l
  induction l with
  | nil => intro seen; rfl
  | cons x t ih =>
    intro seen
    simp only [dedupGo]
    by_cases hc : seen.contains (lowerStr x.name)
    · rw [if_pos hc, ih seen]
    · rw [if_neg hc]
      simp only [dedupGo, if_neg hc, List.contains_cons]
      rw [ih (lowerStr x.name :: seen)]

theorem dedupGo_keys_nodup :
    ∀ (l : List AttorneyInfo) (seen : List String),
      ((dedupGo seen l).map fun a => lowerStr a.name).Nodup := by
  intro l
  induction l with
  | nil => intro seen; simp [dedupGo]
  | cons x t ih =>
    intro seen
    simp only [dedupGo]
    by_cases hc : seen.contains (lowerStr x.name)
    · rw [if_pos hc]; exact ih seen
    · rw [if_neg hc]
      simp only [List.map_cons, List.nodup_cons]
      refine ⟨?_, ih (lowerStr x.name :: seen)⟩
      intro hmem
      rcases List.mem_map.mp hmem with ⟨b, hb, hbeq⟩
      have := dedupGo_not_seen t (lowerStr x.name :: seen) hb
      rw [List.contains_cons] at this
      have h1 := (Bool.or_eq_false_iff.mp this).1
      rw [hbeq] at h1
      simp at h1

theorem dedupGo_find? {a : AttorneyInfo} :
    ∀ (l : List AttorneyInfo) (seen : List String), a ∈ dedupGo seen l →
      l.find? (fun b => lowerStr b.name == lowerStr a.name) = some a := by
  intro l
  induction l with
  | nil => intro seen h; simp [dedupGo] at h
  | cons x t ih =>
    intro seen h
    simp only [dedupGo] at h
    by_cases hc : seen.contains (lowerStr x.name)
    · rw [if_pos hc] at h
      have hne : (lowerStr x.name == lowerStr a.name) = false := by
        by_contra hb
        have hxa : lowerStr x.name = lowerStr a.name := by
          have : (lowerStr x.name == lowerStr a.name) = true := by
            cases hb2 : (lowerStr x.name == lowerStr a.name) with
            | true => rfl
            | false => exact absurd hb2 hb
          simpa using this
        have hnot := dedupGo_not_seen t seen h
        rw [← hxa] at hnot
        rw [hnot] at hc
        exact Bool.false_ne_true hc
      rw [List.find?_cons, hne]
      exact ih seen h
    · rw [if_neg hc] at h
      rcases List.mem_cons.mp h with h1 | h2
      · subst h1
        rw [List.find?_cons]
        have : (lowerStr a.name == lowerStr a.name) = true := by simp
        rw [this]
      · have hne : (lowerStr x.name == lowerStr a.name) = false := by
          have hnot := dedupGo_not_seen t (lowerStr x.name :: seen) h2
          rw [List.contains_cons] at hnot
          have h1 := (Bool.or_eq_false_iff.mp hnot).1
          cases hb2 : (lowerStr x.name == lowerStr a.name) with
          | true =>
            have : lowerStr x.name = lowerStr a.name := by simpa using hb2
            rw [← this] at h1
            simp at h1
          | false => rfl
        rw [List.find?_cons, hne]
        exact ih _ h2

theorem processMatch_some {fp : List String} {m : RMatch} {a : AttorneyInfo}
    (h : processMatch fp m = some a) :
    3 ≤ ((rawNameParty m).1).length ∧ a.name = cleanupName (rawNameParty m).1 ∧
      ∀ sw ∈ skip_words, strContains (lowerStr a.name) sw = false := by
  simp only [processMatch] at h
  split at h
  · exact absurd h (by simp)
  next hlen =>
    split at h
    · exact absurd h (by simp)
    next hfp =>
      split at h
      · exact absurd h (by simp)
      next hskip =>
        have ha : a = { name := cleanupName (rawNameParty m).1,
                        role := some ("For " ++ (rawNameParty m).2), firm := none,
                        party_represented := some (rawNameParty m).2,
                        source := "opinion_text" } := by
          exact (Option.some.injEq _ _).mp h |>.symm
        have hlen' : 3 ≤ ((rawNameParty m).1).length := by
          simp only [Bool.or_eq_true, beq_iff_eq, decide_eq_true_eq] at hlen
          push_neg at hlen
          omega
        refine ⟨hlen', by rw [ha], ?_⟩
        intro sw hsw
        rw [ha]
        simp only [Bool.not_eq_true] at hskip
        have := List.any_eq_false.mp hskip sw hsw
        simpa using this

theorem alookup_bumpAgg_count (a : AttorneyInfo) (k : String) :
    ∀ acc : List (String × AttorneyAgg),
      ((alookup (bumpAgg a acc) k).map AttorneyAgg.case_count).getD 0 =
        ((alookup acc k).map AttorneyAgg.case_count).getD 0 +
          (if aggKey a == k then 1 else 0) := by
  intro acc
  induction acc with
  | nil =>
    simp only [bumpAgg, alookup]
    by_cases hk : (aggKey a == k) = true
    · rw [if_pos hk, if_pos hk]
      simp [updAgg]
    · rw [if_neg (by simpa using hk), if_neg (by simpa using hk)]
      simp
  | cons p t ih =>
    obtain ⟨k', g⟩ := p
    simp only [bumpAgg]
    by_cases hk' : (k' == aggKey a) = true
    · rw [if_pos hk']
      have hkeq : k' = aggKey a := by simpa using hk'
      by_cases hkk : (k' == k) = true
      · simp only [alookup, if_pos hkk]
        have : (aggKey a == k) = true := by rw [← hkeq]; exact hkk
        rw [if_pos this]
        simp [updAgg]
      · simp only [alookup, if_neg (by simpa using hkk), hkk]
        have : (aggKey a == k) = false := by
          rw [← hkeq]
          simpa using hkk
        rw [this]
        simp
    · rw [if_neg (by simpa using hk')]
      by_cases hkk : (k' == k) = true
      · simp only [alookup, if_pos hkk]
        have hkeq : k' = k := by simpa using hkk
        have : (aggKey a == k) = false := by
          have h1 : k' ≠ aggKey a := by simpa using hk'
          rw [← hkeq]
          simp only [beq_eq_false_iff_ne, ne_eq]
          exact fun hc => h1 hc.symm
        rw [this]
        simp
      · simp only [alookup, if_neg (by simpa using hkk), hkk]
        exact ih

theorem alookup_foldl_bumpAgg_count (k : String) :
    ∀ (l : List AttorneyInfo) (acc : List (String × AttorneyAgg)),
      ((alookup (l.foldl (fun acc a => bumpAgg a acc) acc) k).map
          AttorneyAgg.case_count).getD 0 =
        ((alookup acc k).map AttorneyAgg.case_count).getD 0 +
          l.countP (fun a => aggKey a == k) := by
  intro l
  induction l with
  | nil => intro acc; simp
  | cons x t ih =>
    intro acc
    simp only [List.foldl_cons]
    rw [ih (bumpAgg x acc), alookup_bumpAgg_count]
    rw [List.countP_cons]
    omega

theorem mem_insertDesc {x z : AttorneyAgg} :
    ∀ l : List AttorneyAgg, z ∈ insertDesc x l ↔ z = x ∨ z ∈ l := by
  intro l
  induction l with
  | nil => simp [insertDesc]
  | cons y t ih =>
    simp only [insertDesc]
    by_cases hlt : x.case_count < y.case_count
    · rw [if_pos hlt]
      rw [List.mem_cons, ih, List.mem_cons]
      tauto
    · rw [if_neg hlt]
      simp only [List.mem_cons]

theorem pairwise_insertDesc {x : AttorneyAgg} :
    ∀ l : List AttorneyAgg,
      List.Pairwise (fun a b => b.case_count ≤ a.case_count) l →
      List.Pairwise (fun a b => b.case_count ≤ a.case_count) (insertDesc x l) := by
  intro l
  induction l with
  | nil => intro _; simp [insertDesc]
  | cons y t ih =>
    intro hp
    rcases List.pairwise_cons.mp hp with ⟨hy, ht⟩
    simp only [insertDesc]
    by_cases hlt : x.case_count < y.case_count
    · rw [if_pos hlt]
      refine List.pairwise_cons.mpr ⟨?_, ih ht⟩
      intro z hz
      rcases (mem_insertDesc t).mp hz with h1 | h2
      · subst h1; omega
      · exact hy z h2
    · rw [if_neg hlt]
      refine List.pairwise_cons.mpr ⟨?_, hp⟩
      intro z hz
      rcases List.mem_cons.mp hz with h1 | h2
      · subst h1; omega
      · have := hy z h2; omega

theorem sortDesc_pairwise :
    ∀ l : List AttorneyAgg,
      List.Pairwise (fun a b => b.case_count ≤ a.case_count) (sortDesc l) := by
  intro l
  induction l with
  | nil => simp [sortDesc]
  | cons x t ih => exact pairwise_insertDesc _ ih

theorem filter_insertDesc (x : AttorneyAgg) (n : Nat) :
    ∀ l : List AttorneyAgg,
      (insertDesc x l).filter (fun g => g.case_count == n) =
        if x.case_count == n then x :: l.filter (fun g => g.case_count == n)
        else l.filter (fun g => g.case_count == n) := by
  intro l
  induction l with
  | nil =>
    simp only [insertDesc, List.filter_cons, List.filter_nil]
  | cons y t ih =>
    simp only [insertDesc]
    by_cases hlt : x.case_count < y.case_count
    · rw [if_pos hlt]
      rw [List.filter_cons, ih]
      by_cases hx : (x.case_count == n) = true
      · have hy : (y.case_count == n) = false := by
          have hxn : x.case_count = n := by simpa using hx
          simp only [beq_eq_false_iff_ne, ne_eq]
          omega
        rw [hx, hy]
        simp only [Bool.false_eq_true, if_false, if_pos]
        rw [List.filter_cons, hy]
        simp
      · rw [Bool.not_eq_true] at hx
        rw [hx]
        simp only [Bool.false_eq_true, if_false]
        rw [List.filter_cons]
    · rw [if_neg hlt]
      rw [List.filter_cons]

theorem sortDesc_filter (n : Nat) :
    ∀ l : List AttorneyAgg,
      (sortDesc l).filter (fun g => g.case_count == n) =
        l.filter (fun g => g.case_count == n) := by
  intro l
  induction l with
  | nil => rfl
  | cons x t ih =>
    simp only [sortDesc]
    rw [filter_insertDesc, List.filter_cons]
    by_cases hx : (x.case_count == n) = true
    · rw [hx]; simp [ih]
    · rw [Bool.not_eq_true] at hx; rw [hx]; simp [ih]

theorem partiesLoop_eq :
    ∀ (entries : List PartyEntry) (acc : List AttorneyInfo),
      partiesLoop acc entries =
        acc ++ ((entries.takeWhile fun e => e != PartyEntry.bad).map
          partyRecords).flatten := by
  intro entries
  induction entries with
  | nil => intro acc; simp [partiesLoop]
  | cons e t ih =>
    intro acc
    cases e with
    | bad => simp [partiesLoop, List.takeWhile_cons]
    | ok pn ptn attys =>
      simp only [partiesLoop]
      rw [ih]
      have hne : ((PartyEntry.ok pn ptn attys) != PartyEntry.bad) = true := by
        simp
      rw [List.takeWhile_cons, if_pos hne]
      simp [List.append_assoc]

theorem reconcileTerms_ne_empty {pf : String} (h : pf ≠ "") :
    ∀ t ∈ reconcileTerms pf, t ≠ "" := by
  intro t ht
  unfold reconcileTerms at ht
  cases hlk : alookup reconcile_party_aliases (lowerStr pf) with
  | none =>
    rw [hlk] at ht
    simp only [Option.getD_none, List.mem_singleton] at ht
    subst ht
    exact lowerStr_ne_empty h
  | some v =>
    rw [hlk] at ht
    simp only [Option.getD_some] at ht
    have hmem := alookup_mem _ _ _ hlk
    have hall : ∀ p ∈ reconcile_party_aliases, ∀ t ∈ p.2, t ≠ "" := by decide
    exact hall _ hmem t ht

theorem claimContainsTerm_eq_code (terms : List String)
    (hne : ∀ t ∈ terms, t ≠ "") (o : Option String) :
    (pyTruthyStr o && terms.any fun ft => strContains (lowerStr (o.getD "")) ft) =
      claimContainsTerm terms o := by
  cases o with
  | none => simp [pyTruthyStr, claimContainsTerm]
  | some s =>
    by_cases hs : s = ""
    · subst hs
      have hany : (terms.any fun ft => strContains (lowerStr "") ft) = false := by
        rw [List.any_eq_false]
        intro t ht
        have : strContains "" t = false := strContains_empty_hay (hne t ht)
        simpa [lowerStr] using this
      simp [pyTruthyStr, claimContainsTerm, hany]
    · simp [pyTruthyStr, claimContainsTerm, hs]

theorem keepRecord_eq_claim (terms : List String) (a : AttorneyInfo)
    (hne : ∀ t ∈ terms, t ≠ "") :
    keepRecord terms a = true ↔
      (claimContainsTerm terms a.party_represented = true ∨
       claimContainsTerm terms a.role = true ∨
       a.source = "search_result") := by
  unfold keepRecord
  rw [claimContainsTerm_eq_code terms hne a.party_represented,
      claimContainsTerm_eq_code terms hne a.role]
  simp only [Bool.or_eq_true, beq_iff_eq]
  tauto

/-! ## Claims -/

/-- Claim C1, counterexample: one case whose retained records carry the
same name twice (once from the search-result source and once from the
docket source) yields `case_count = 2`, while the number of cases in
which the name appears is 1 — so `case_count` does not count cases. -/
theorem C1_counterexample :
    ((aggregate ([[⟨"John Smith", some "From case record", none, none, "search_result"⟩,
                   ⟨"John Smith", some "For Plaintiff", none, some "Plaintiff", "docket"⟩]] :
        List (List AttorneyInfo)).flatten).map fun p => (p.1, p.2.case_count)) =
      [("john smith", 2)] ∧
    specCaseCount [[⟨"John Smith", some "From case record", none, none, "search_result"⟩,
                    ⟨"John Smith", some "For Plaintiff", none, some "Plaintiff", "docket"⟩]]
      "john smith" = 1 ∧
    (2 : Nat) ≠ 1 := by
  refine ⟨by decide, by decide, by decide⟩

/-- Claim C1 (amended): in each `unique_attorneys` entry, `case_count`
equals the number of retained attorney records (summed over all cases)
whose case-insensitive trimmed name is the key of the entry — a case
contributes once per retained record of that name, not once per case. -/
theorem C1_case_count_counts_records :
    ∀ (caseLists : List (List AttorneyInfo)) (k : String) (g : AttorneyAgg),
      alookup (aggregate caseLists.flatten) k = some g →
      g.case_count = caseLists.flatten.countP fun a => aggKey a == k := by
  intro caseLists k g h
  have hc := alookup_foldl_bumpAgg_count k caseLists.flatten []
  unfold aggregate at h
  rw [h] at hc
  simpa [alookup] using hc

/-- Claim C1, witness: the amended statement evaluated at two
single-record cases of the same attorney name. -/
theorem C1_witness :
    (⟨"John Smith", ["From case record", "For Plaintiff"], [], 2,
        ["search_result", "docket"]⟩ : AttorneyAgg).case_count =
      ([[⟨"John Smith", some "From case record", none, none, "search_result"⟩],
        [⟨"John Smith", some "For Plaintiff", none, some "Plaintiff", "docket"⟩]] :
        List (List AttorneyInfo)).flatten.countP fun a => aggKey a == "john smith" :=
  C1_case_count_counts_records
    [[⟨"John Smith", some "From case record", none, none, "search_result"⟩],
     [⟨"John Smith", some "For Plaintiff", none, some "Plaintiff", "docket"⟩]]
    "john smith" _ (by decide)

/-- Claim C2, counterexample: for a captured name whose raw stripped
form has length 3 but ends in a comma, the length guard of the extractor
(applied before cleanup) passes, and the returned name after
whitespace normalization and trailing-comma removal has length 2 —
so the ≥3 rule does not hold of the returned (cleaned) name. -/
theorem C2_counterexample :
    (extract_attorneys_from_matches [⟨"Ab,", "Appellant"⟩] "all").map
      (fun a => a.name) = ["Ab"] ∧
    ("Ab" : String).length < 3 := by
  refine ⟨by decide, by decide⟩

/-- Claim C2 (amended): the ≥3-length guard is applied to the raw
stripped captured name before whitespace normalization and
trailing-comma removal: every returned record comes from a match whose
raw stripped name has length ≥ 3 (the cleaned name may be shorter);
the reject-list rule holds as stated — no returned name contains a
reject-list phrase case-insensitively. -/
theorem C2_length_checked_before_cleanup :
    ∀ (ms : List RMatch) (pf : String) (a : AttorneyInfo),
      a ∈ extract_attorneys_from_matches ms pf →
      (∃ m ∈ ms, processMatch (filterPartiesOf pf) m = some a ∧
         3 ≤ ((rawNameParty m).1).length) ∧
      ∀ sw ∈ skip_words, strContains (lowerStr a.name) sw = false := by
  intro ms pf a h
  have hraw : a ∈ ms.filterMap (processMatch (filterPartiesOf pf)) :=
    mem_of_mem_dedupGo _ [] h
  rcases List.mem_filterMap.mp hraw with ⟨m, hm, hpm⟩
  have hf := processMatch_some hpm
  exact ⟨⟨m, hm, hpm, hf.1⟩, hf.2.2⟩

/-- Claim C2, witness: the amended statement evaluated at a single
well-formed match. -/
theorem C2_witness :
    (∃ m ∈ [(⟨"John Smith", "Appellant"⟩ : RMatch)],
       processMatch (filterPartiesOf "all") m =
         some ⟨"John Smith", some "For Appellant", none, some "Appellant", "opinion_text"⟩ ∧
       3 ≤ ((rawNameParty m).1).length) ∧
    ∀ sw ∈ skip_words,
      strContains (lowerStr (⟨"John Smith", some "For Appellant", none,
        some "Appellant", "opinion_text"⟩ : AttorneyInfo).name) sw = false :=
  C2_length_checked_before_cleanup [⟨"John Smith", "Appellant"⟩] "all"
    ⟨"John Smith", some "For Appellant", none, some "Appellant", "opinion_text"⟩
    (by decide)

/-- Claim C6: `unique_attorneys` is sorted descending by `case_count`
with a stable sort — the sort output is descending, and for every
count value the subsequence of entries with that count equals the
corresponding subsequence of the aggregate in discovery order; in
particular entries with counts `[3,1,3,2]` come out `[3,3,2,1]` with
the two count-3 entries in their original relative order. -/
theorem C6_ranking_stable_descending :
    ∀ l : List AttorneyInfo,
      List.Pairwise (fun a b => b.case_count ≤ a.case_count) (unique_attorneys l) ∧
      (∀ n : Nat,
        (unique_attorneys l).filter (fun g => g.case_count == n) =
          ((aggregate l).map Prod.snd).filter (fun g => g.case_count == n)) ∧
      sortDesc [⟨"A", [], [], 3, []⟩, ⟨"B", [], [], 1, []⟩,
                ⟨"C", [], [], 3, []⟩, ⟨"D", [], [], 2, []⟩] =
        [⟨"A", [], [], 3, []⟩, ⟨"C", [], [], 3, []⟩,
         ⟨"D", [], [], 2, []⟩, ⟨"B", [], [], 1, []⟩] := by
  intro l
  exact ⟨sortDesc_pairwise _, fun n => sortDesc_filter n _, by decide⟩

/-- Claim C7: deduplication in the extractor is idempotent, its output
has exactly one record per case-insensitive name, and each output
record is the first record with its name in pattern-scan order. -/
theorem C7_dedup_idempotent_first_wins :
    ∀ (ms : List RMatch) (pf : String),
      dedupByName (extract_attorneys_from_matches ms pf) =
        extract_attorneys_from_matches ms pf ∧
      ((extract_attorneys_from_matches ms pf).map fun a => lowerStr a.name).Nodup ∧
      ∀ a ∈ extract_attorneys_from_matches ms pf,
        (ms.filterMap (processMatch (filterPartiesOf pf))).find?
          (fun b => lowerStr b.name == lowerStr a.name) = some a := by
  intro ms pf
  refine ⟨dedupGo_idem _ [], dedupGo_keys_nodup _ [], ?_⟩
  intro a h
  exact dedupGo_find? _ [] h

/-- Claim C7, witness: two matches rendering the same name in different
case collapse to the first occurrence. -/
theorem C7_witness :
    dedupByName (extract_attorneys_from_matches
        [⟨"John Smith", "Appellant"⟩, ⟨"JOHN SMITH", "Respondent"⟩] "all") =
      extract_attorneys_from_matches
        [⟨"John Smith", "Appellant"⟩, ⟨"JOHN SMITH", "Respondent"⟩] "all" ∧
    ([(⟨"John Smith", "Appellant"⟩ : RMatch), ⟨"JOHN SMITH", "Respondent"⟩].filterMap
        (processMatch (filterPartiesOf "all"))).find?
      (fun b => lowerStr b.name ==
        lowerStr (⟨"John Smith", some "For Appellant", none, some "Appellant",
          "opinion_text"⟩ : AttorneyInfo).name) =
      some ⟨"John Smith", some "For Appellant", none, some "Appellant", "opinion_text"⟩ :=
  ⟨(C7_dedup_idempotent_first_wins
      [⟨"John Smith", "Appellant"⟩, ⟨"JOHN SMITH", "Respondent"⟩] "all").1,
   (C7_dedup_idempotent_first_wins
      [⟨"John Smith", "Appellant"⟩, ⟨"JOHN SMITH", "Respondent"⟩] "all").2.2
     ⟨"John Smith", some "For Appellant", none, some "Appellant", "opinion_text"⟩
     (by decide)⟩

/-- Claim C3: for every non-empty party filter narrower than `"all"`,
the per-case reconciliation retains a record exactly when its
`party_represented` or its `role` textually contains one of the
alias terms of the filter (case-insensitively), or its source is
`search_result`, which is always retained. -/
theorem C3_reconciliation_filter_iff (pf : String) (h1 : pf ≠ "all") (h2 : pf ≠ "")
    (l : List AttorneyInfo) (a : AttorneyInfo) :
    a ∈ applyPartyFilter pf l ↔
      a ∈ l ∧ (claimContainsTerm (reconcileTerms pf) a.party_represented = true ∨
               claimContainsTerm (reconcileTerms pf) a.role = true ∨
               a.source = "search_result") := by
  have hne := reconcileTerms_ne_empty h2
  unfold applyPartyFilter
  cases l with
  | nil => simp
  | cons x t =>
    have hcond : (decide (pf ≠ "all") && !(x :: t).isEmpty) = true := by
      simp [h1]
    rw [if_pos hcond, List.mem_filter, keepRecord_eq_claim _ _ hne]

/-- Claim C3, witness: under `party_filter="tenant"`, a record
representing the Plaintiff is retained, a Defendant record with no
matching role is discarded, and a `search_result` record is retained
regardless of party. -/
theorem C3_witness :
    ((⟨"A", some "For Plaintiff", none, some "Plaintiff", "docket"⟩ : AttorneyInfo) ∈
      applyPartyFilter "tenant"
        [⟨"A", some "For Plaintiff", none, some "Plaintiff", "docket"⟩,
         ⟨"B", some "For Defendant", none, some "Defendant", "docket"⟩,
         ⟨"C", none, none, some "Defendant", "search_result"⟩]) ∧
    ¬ ((⟨"B", some "For Defendant", none, some "Defendant", "docket"⟩ : AttorneyInfo) ∈
      applyPartyFilter "tenant"
        [⟨"A", some "For Plaintiff", none, some "Plaintiff", "docket"⟩,
         ⟨"B", some "For Defendant", none, some "Defendant", "docket"⟩,
         ⟨"C", none, none, some "Defendant", "search_result"⟩]) ∧
    ((⟨"C", none, none, some "Defendant", "search_result"⟩ : AttorneyInfo) ∈
      applyPartyFilter "tenant"
        [⟨"A", some "For Plaintiff", none, some "Plaintiff", "docket"⟩,
         ⟨"B", some "For Defendant", none, some "Defendant", "docket"⟩,
         ⟨"C", none, none, some "Defendant", "search_result"⟩]) := by
  refine ⟨?_, ?_, ?_⟩
  · exact (C3_reconciliation_filter_iff "tenant" (by decide) (by decide) _ _).2
      (by decide)
  · intro hmem
    have := (C3_reconciliation_filter_iff "tenant" (by decide) (by decide) _ _).1 hmem
    exact absurd this (by decide)
  · exact (C3_reconciliation_filter_iff "tenant" (by decide) (by decide) _ _).2
      (by decide)

/-- Claim C4, counterexample: a free-text filter keyword absent from
the alias table of the extractor (`"petitioner"`) is not treated as a
literal one-term alias set — the alias lookup defaults to the empty
list, which disables filtering entirely, so a match whose captured
party (`"Defendant"`) contains no occurrence of `"petitioner"` is
returned rather than discarded. -/
theorem C4_counterexample :
    (extract_attorneys_from_matches [⟨"John Smith", "Defendant"⟩] "petitioner").map
      (fun a => a.name) = ["John Smith"] ∧
    strContains (lowerStr "Defendant") "petitioner" = false := by
  refine ⟨by decide, by decide⟩

/-- Claim C4 (amended): for a filter keyword present in the alias
table of the extractor the discard rule holds — a match whose captured party
contains none of the alias terms is discarded; for a keyword absent
from the table the alias set defaults to empty, which disables party
filtering in the text extractor, making it behave exactly as
`party_filter="all"` (the literal one-term alias set exists only in
the per-case reconciliation step). -/
theorem C4_extractor_alias_filtering :
    ∀ pf : String, pf ≠ "all" →
      (∀ (terms : List String) (m : RMatch),
        alookup party_aliases (lowerStr pf) = some terms →
        (terms.any fun fp => strContains (lowerStr (rawNameParty m).2) fp) = false →
        processMatch (filterPartiesOf pf) m = none) ∧
      (alookup party_aliases (lowerStr pf) = none →
        ∀ ms, extract_attorneys_from_matches ms pf =
          extract_attorneys_from_matches ms "all") := by
  intro pf hpf
  constructor
  · intro terms m hlk hany
    have hfp : filterPartiesOf pf = terms := by
      unfold filterPartiesOf
      rw [if_pos hpf, hlk]
      rfl
    have hterms_ne : terms ≠ [] := by
      have hmem := alookup_mem _ _ _ hlk
      have hall : ∀ p ∈ party_aliases, p.2 ≠ [] := by decide
      exact hall _ hmem
    have hB : (!terms.isEmpty &&
        !(terms.any fun fp => strContains (lowerStr (rawNameParty m).2) fp)) = true := by
      rw [hany]
      cases terms with
      | nil => exact absurd rfl hterms_ne
      | cons u us => simp
    rw [hfp]
    simp [processMatch, hB]
  · intro hlk ms
    have hA : filterPartiesOf pf = [] := by
      unfold filterPartiesOf
      rw [if_pos hpf, hlk]
      rfl
    have hB : filterPartiesOf "all" = [] := by
      unfold filterPartiesOf
      simp
    unfold extract_attorneys_from_matches
    rw [hA, hB]

/-- Claim C4, witness: the amended statement evaluated at the table
keyword `"tenant"` (non-matching party discarded) and the free-text
keyword `"petitioner"` (extractor behaves as `"all"`). -/
theorem C4_witness :
    processMatch (filterPartiesOf "tenant") ⟨"John Smith", "Defendant"⟩ = none ∧
    extract_attorneys_from_matches [⟨"John Smith", "Defendant"⟩] "petitioner" =
      extract_attorneys_from_matches [⟨"John Smith", "Defendant"⟩] "all" :=
  ⟨(C4_extractor_alias_filtering "tenant" (by decide)).1
      ["appellant", "plaintiff", "petitioner", "tenant"]
      ⟨"John Smith", "Defendant"⟩ (by decide) (by decide),
   (C4_extractor_alias_filtering "petitioner" (by decide)).2 (by decide)
      [⟨"John Smith", "Defendant"⟩]⟩

/-- Claim C5: for each case, the opinion-text fetch-and-extract step
runs exactly when the cluster identifier is truthy and fewer than two
attorney records were collected from the search-result field and the
docket lookup; with two or more records it never runs. -/
theorem C5_opinion_fetch_gate :
    ∀ (pf : String) (c : CaseSearchResult),
      (collectCase pf c).2 = true ↔
        (pyTruthyInt c.cluster_id = true ∧
         (searchFieldRecords c ++ docketRecords c).length < 2) := by
  intro pf c
  unfold collectCase
  by_cases hcond : (pyTruthyInt c.cluster_id &&
      decide ((searchFieldRecords c ++ docketRecords c).length < 2)) = true
  · rw [if_pos hcond]
    simp only [true_iff]
    constructor
    · exact (Bool.and_eq_true _ _).mp hcond |>.1
    · have := (Bool.and_eq_true _ _).mp hcond |>.2
      simpa using this
  · rw [if_neg hcond]
    simp only [Bool.false_eq_true, false_iff]
    intro hcontra
    exact hcond (by rw [hcontra.1]; simpa using hcontra.2)

/-- Claim C8: the jurisdiction filter clause is, for a code mapping to
two or more court identifiers, a parenthesized OR of exactly those
`court_id:` terms in table order; for a code mapping to one identifier,
the bare `court_id:` term; and for a code absent from the table, the
clause `court_id:<code>` with the code folded to lowercase — with no
error in any case.  The lookup key is the lowercased input, so matching
is case-insensitive. -/
theorem C8_court_filter_clause :
    ∀ j : String,
      (∀ ids, alookup COURTLISTENER_JURISDICTIONS (lowerStr j) = some ids →
        2 ≤ ids.length →
        build_court_filter_query j =
          "(" ++ joinSep " OR " (ids.map fun cid => "court_id:" ++ cid) ++ ")") ∧
      (∀ cid, alookup COURTLISTENER_JURISDICTIONS (lowerStr j) = some [cid] →
        build_court_filter_query j = "court_id:" ++ cid) ∧
      (alookup COURTLISTENER_JURISDICTIONS (lowerStr j) = none →
        build_court_filter_query j = "court_id:" ++ lowerStr j) := by
  intro j
  refine ⟨?_, ?_, ?_⟩
  · intro ids hlk hlen
    have hne : (ids.length == 1) = false := by
      simp only [beq_eq_false_iff_ne, ne_eq]
      omega
    simp only [build_court_filter_query, hlk, hne]
    simp
  · intro cid hlk
    simp only [build_court_filter_query, hlk]
    rfl
  · intro hlk
    simp only [build_court_filter_query, hlk]

/-- Claim C8, witness: the three cases evaluated at `"CA"` (three
identifiers, matched case-insensitively), `"wv"` (one identifier) and
`"zz"` (absent from the table). -/
theorem C8_witness :
    build_court_filter_query "CA" =
      "(" ++ joinSep " OR " (["cal", "calctapp", "calappdeptsuperct"].map
        fun cid => "court_id:" ++ cid) ++ ")" ∧
    build_court_filter_query "wv" = "court_id:" ++ "wva" ∧
    build_court_filter_query "zz" = "court_id:" ++ lowerStr "zz" :=
  ⟨(C8_court_filter_clause "CA").1 ["cal", "calctapp", "calappdeptsuperct"]
      (by decide) (by decide),
   (C8_court_filter_clause "wv").2.1 "wva" (by decide),
   (C8_court_filter_clause "zz").2.2 (by decide)⟩

/-- Claim C9, counterexample: a 200 response whose second party entry
is malformed (processing it raises) makes the fetcher return the one
record built from the first party — a non-empty partially-built list,
not the empty sequence the claim requires on an exception. -/
theorem C9_counterexample :
    fetch_parties_and_attorneys
      ⟨200, [PartyEntry.ok "Acme Corp" "Plaintiff" [⟨"John Smith", "Smith LLP"⟩],
             PartyEntry.bad]⟩ =
      [⟨"John Smith", some "For Plaintiff", some "Smith LLP", some "Acme Corp",
        "docket"⟩] ∧
    fetch_parties_and_attorneys
      ⟨200, [PartyEntry.ok "Acme Corp" "Plaintiff" [⟨"John Smith", "Smith LLP"⟩],
             PartyEntry.bad]⟩ ≠ [] := by
  refine ⟨by decide, by decide⟩

/-- Claim C9 (amended): the docket fetcher never raises; a non-success
response yields the empty sequence, and an exception during processing
yields exactly the records built from the parties preceding the first
malformed entry — a possibly non-empty partial list (empty only when
the exception occurs before any record is built). -/
theorem C9_failure_behaviour :
    ∀ resp : PartiesResponse,
      fetch_parties_and_attorneys resp =
        if resp.status ≠ 200 then []
        else ((resp.results.takeWhile fun e => e != PartyEntry.bad).map
          partyRecords).flatten := by
  intro resp
  unfold fetch_parties_and_attorneys
  by_cases h : resp.status ≠ 200
  · rw [if_pos h, if_pos h]
  · rw [if_neg h, if_neg h]
    simpa using partiesLoop_eq resp.results []

theorem calbar_append_ne (bn : String) :
    CALBAR_DETAIL_URL ++ bn ≠ ABA_FALLBACK_URL := by
  intro h
  have hd : CALBAR_DETAIL_URL.data ++ bn.data = ABA_FALLBACK_URL.data :=
    congrArg String.data h
  have h2 := congrArg (List.take CALBAR_DETAIL_URL.data.length) hd
  rw [List.take_left] at h2
  exact absurd h2 (by decide)

/-- Claim C10: the verification endpoint rejects any request whose
uppercased state code is not one of the 51 entries of the state-bar
table with an HTTP 400 error (no verification URL is produced), and
every successful response carries a verification URL different from
the generic American Bar Association fallback of
`build_verification_url` — the fallback is unreachable through this
endpoint. -/
theorem C10_invalid_state_rejected :
    STATE_BAR_INFO.length = 51 ∧
    (∀ req : VerifyAttorneyRequest,
      alookup STATE_BAR_INFO (upperStr req.state) = none →
      verify_attorney req = .error 400) ∧
    (∀ (req : VerifyAttorneyRequest) (resp : VerifyAttorneyResponse),
      verify_attorney req = .ok resp →
      resp.verification_url ≠ ABA_FALLBACK_URL) := by
  refine ⟨by decide, ?_, ?_⟩
  · intro req hlk
    simp only [verify_attorney]
    rw [hlk]
  · intro req resp hok
    simp only [verify_attorney] at hok
    cases hlk : alookup STATE_BAR_INFO (upperStr req.state) with
    | none => rw [hlk] at hok; exact absurd hok (by simp)
    | some info =>
      rw [hlk] at hok
      simp only [Except.ok.injEq] at hok
      have hurl : resp.verification_url =
          build_verification_url (upperStr req.state) (stripStr req.bar_number) := by
        rw [← hok]
      rw [hurl]
      have hmem := alookup_mem _ _ _ hlk
      have hupfix : upperStr (upperStr req.state) = upperStr req.state := by
        have hall : ∀ p ∈ STATE_BAR_INFO, upperStr p.1 = p.1 := by decide
        exact hall _ hmem
      unfold build_verification_url
      rw [hupfix]
      by_cases hca : ((upperStr req.state == "CA") &&
          decide (stripStr req.bar_number ≠ "")) = true
      · rw [if_pos hca]
        exact calbar_append_ne _
      · rw [if_neg hca]
        rw [hlk]
        have hall2 : ∀ p ∈ STATE_BAR_INFO, p.2.url ≠ ABA_FALLBACK_URL := by decide
        exact hall2 _ hmem

/-- Claim C10, witness: the rejection evaluated at the unknown state
code `"zz"`, and the fallback-unreachability evaluated at the New York
response. -/
theorem C10_witness :
    verify_attorney ⟨"zz", "1"⟩ = .error 400 ∧
    (⟨"https://iapps.courts.state.ny.us/attorneyservices/search",
      "New York Courts Attorney Search",
      "Search by name or registration number"⟩ :
        VerifyAttorneyResponse).verification_url ≠ ABA_FALLBACK_URL :=
  ⟨C10_invalid_state_rejected.2.1 ⟨"zz", "1"⟩ (by decide),
   C10_invalid_state_rejected.2.2 ⟨"NY", "1"⟩ _ (by rfl)⟩
